import Mathlib

/-!
Verification of the envoy-hck Go application (main.go, two variants: the
mTLS variant and the standalone variant) against its specification.

The source is shallowly embedded: the gRPC StreamTime handler becomes a
state machine driven by a trace of select outcomes (context cancellation
or ticker ticks, each tick carrying the outcome of the stream.Send call),
the health toggle HTTP handler becomes a pure state transition on a server
state holding the mutex-guarded isHealthy flag and the health server
status map, and process startup becomes a function over an environment
recording which fallible startup steps (certificate loading, listener
binding) succeed.

Wall-clock instants are abstracted as natural numbers; the RFC-3339
rendering t.Format(time.RFC3339) is abstracted as an injective decimal
rendering of the instant, since every claim depends only on which instants
are formatted and in what order, never on the concrete text of the
timestamp.
-/

/-- Abstraction of t.Format(time.RFC3339): an injective rendering of the
abstract instant. -/
def formatRFC3339 (t : Nat) : String := toString t

/-- Embedding of the protobuf TimeResponse message: a single string field
CurrentTime. -/
structure TimeResponse where
  currentTime : String
  deriving DecidableEq, Repr

/-- One outcome of the select statement in the StreamTime loop: either the
stream context is done, or the ticker fires at instant t and the
subsequent stream.Send either succeeds (sendErr = none) or fails with the
given error text (sendErr = some e). -/
inductive StreamEvent where
  | ctxDone : StreamEvent
  | tick (t : Nat) (sendErr : Option String) : StreamEvent
  deriving DecidableEq, Repr

/-- The value StreamTime returns: nil on client disconnect, or a gRPC
status with codes.Internal on a send failure. -/
inductive StreamResult where
  | clientDisconnected : StreamResult
  | internalError (msg : String) : StreamResult
  deriving DecidableEq, Repr

/-- Control state of one StreamTime invocation: still inside the for loop,
or returned with a result. -/
inductive SessionPhase where
  | running : SessionPhase
  | terminated (r : StreamResult) : SessionPhase
  deriving DecidableEq, Repr

/-- State of one StreamTime invocation: its control phase, the
TimeResponse values passed to stream.Send so far (in call order), and
ghost counters for time.NewTicker and ticker.Stop calls. -/
structure SessionState where
  phase : SessionPhase
  writes : List TimeResponse
  tickersStarted : Nat
  tickersStopped : Nat
  deriving DecidableEq, Repr

namespace MTLS

/-- Tick period of the mTLS variant: time.NewTicker(2 * time.Second). -/
def tickPeriodSeconds : Nat := 2

/-- State of the mTLS StreamTime on entry: inside the loop, nothing sent,
one ticker created by time.NewTicker and not yet stopped. -/
def initialSession : SessionState :=
  { phase := .running, writes := [], tickersStarted := 1, tickersStopped := 0 }

/-- One iteration of the mTLS StreamTime select loop. A ctxDone event is
the "stream.Context().Done()" case: return nil, the deferred ticker.Stop()
runs. A tick event is the "t := <-ticker.C" case: stream.Send is called
with the formatted time; if it fails the handler returns
status.Errorf(codes.Internal, ...) and the deferred ticker.Stop() runs,
otherwise the loop continues. Events reaching a terminated session are
ignored: the handler has already returned. -/
def sessionStep (s : SessionState) (e : StreamEvent) : SessionState :=
  match s.phase with
  | .terminated _ => s
  | .running =>
    match e with
    | .ctxDone =>
        { s with phase := .terminated .clientDisconnected,
                 tickersStopped := s.tickersStopped + 1 }
    | .tick t sendErr =>
        match sendErr with
        | none =>
            { s with writes := s.writes ++ [{ currentTime := formatRFC3339 t }] }
        | some e =>
            { s with
                phase := .terminated (.internalError ("failed to send time: " ++ e)),
                writes := s.writes ++ [{ currentTime := formatRFC3339 t }],
                tickersStopped := s.tickersStopped + 1 }

/-- The mTLS StreamTime handler, run on a trace of select outcomes. -/
def StreamTime (evs : List StreamEvent) : SessionState :=
  evs.foldl sessionStep initialSession

end MTLS

namespace Standalone

/-- Tick period of the standalone variant: time.NewTicker(1 * time.Second). -/
def tickPeriodSeconds : Nat := 1

/-- State of the standalone StreamTime on entry: inside the loop, nothing
sent, one ticker created by time.NewTicker and not yet stopped. -/
def initialSession : SessionState :=
  { phase := .running, writes := [], tickersStarted := 1, tickersStopped := 0 }

/-- One iteration of the standalone StreamTime select loop; the loop body
is textually identical to the mTLS variant. -/
def sessionStep (s : SessionState) (e : StreamEvent) : SessionState :=
  match s.phase with
  | .terminated _ => s
  | .running =>
    match e with
    | .ctxDone =>
        { s with phase := .terminated .clientDisconnected,
                 tickersStopped := s.tickersStopped + 1 }
    | .tick t sendErr =>
        match sendErr with
        | none =>
            { s with writes := s.writes ++ [{ currentTime := formatRFC3339 t }] }
        | some e =>
            { s with
                phase := .terminated (.internalError ("failed to send time: " ++ e)),
                writes := s.writes ++ [{ currentTime := formatRFC3339 t }],
                tickersStopped := s.tickersStopped + 1 }

/-- The standalone StreamTime handler, run on a trace of select outcomes. -/
def StreamTime (evs : List StreamEvent) : SessionState :=
  evs.foldl sessionStep initialSession

end Standalone

/-- Trace-side characterization: the trace consists only of ticks whose
send succeeds, so the loop never exits. -/
def okTicks : List StreamEvent → Bool
  | [] => true
  | .tick _ none :: rest => okTicks rest
  | _ => false

/-- Trace-side characterization: the instants of all tick events of a
trace, in trace order. -/
def eventTicks : List StreamEvent → List Nat
  | [] => []
  | .ctxDone :: rest => eventTicks rest
  | .tick t _ :: rest => t :: eventTicks rest

/-- Trace-side characterization: the instants of the ticks the session
actually processes before returning: every successful tick before the
first terminating event, plus the tick whose send fails when that is the
terminating event. -/
def processedTicks : List StreamEvent → List Nat
  | [] => []
  | .ctxDone :: _ => []
  | .tick t none :: rest => t :: processedTicks rest
  | .tick t (some _) :: _ => [t]

/-- Embedding of grpc_health_v1.HealthCheckResponse serving statuses used
by the application. -/
inductive ServingStatus where
  | SERVING : ServingStatus
  | NOT_SERVING : ServingStatus
  deriving DecidableEq, Repr

/-- Embedding of healthServer.SetServingStatus: record the status for the
given service name. The status map is an association list where the most
recent entry for a key shadows older ones. -/
def setServingStatus (m : List (String × ServingStatus)) (service : String)
    (st : ServingStatus) : List (String × ServingStatus) :=
  (service, st) :: m

/-- Process-wide mutable state shared by the toggle handler and the health
service: the mutex-guarded isHealthy flag and the health server status
map (health.NewServer() is modelled as an empty map; the application sets
the whole-server entry itself at startup). -/
structure ServerState where
  isHealthy : Bool
  statusMap : List (String × ServingStatus)
  deriving DecidableEq, Repr

/-- Status recorded in the health server for a service name, if any. -/
def getServingStatus (st : ServerState) (service : String) : Option ServingStatus :=
  st.statusMap.lookup service

/-- State established by main before serving: isHealthy starts true (its
package-level starting value) and healthServer.SetServingStatus("", SERVING)
is called before any request is handled. -/
def initialServerState : ServerState :=
  { isHealthy := true, statusMap := setServingStatus [] "" .SERVING }

/-- The /toggle-health HTTP handler body, run under mu: flip isHealthy,
push the matching status to the health server for the whole-server key,
and write the confirmation body produced by
fmt.Fprintf(w, "Health status is now %s\n", statusString). -/
def handleToggle (st : ServerState) : ServerState × String :=
  let h := !st.isHealthy
  let statusString := if h then "HEALTHY" else "UNHEALTHY"
  let m := setServingStatus st.statusMap ""
    (if h then ServingStatus.SERVING else ServingStatus.NOT_SERVING)
  ({ isHealthy := h, statusMap := m }, "Health status is now " ++ statusString ++ "\n")

/-- N sequential requests to the toggle handler starting from the state
main sets up. -/
def iterateToggle : Nat → ServerState
  | 0 => initialServerState
  | n + 1 => (handleToggle (iterateToggle n)).1

/-- Substring test on character lists: pat occurs contiguously. -/
def listContains (pat : List Char) : List Char → Bool
  | [] => pat.isEmpty
  | c :: rest => pat.isPrefixOf (c :: rest) || listContains pat rest

/-- Substring test on strings, used to state "the body contains X". -/
def strContains (s pat : String) : Bool :=
  listContains pat.toList s.toList

/-- Outcome of each fallible or unchecked step of main, as decided by the
external environment. For the error-returning calls, none means the Go
error was nil and some e the error text; appendCertsFromPEMOk is the
boolean result of caCertPool.AppendCertsFromPEM(caCert), true exactly
when at least one certificate was parsed out of the CA file and added to
the pool. -/
structure StartupEnv where
  loadX509KeyPairErr : Option String
  readFileCACertErr : Option String
  appendCertsFromPEMOk : Bool
  netListenErr : Option String
  listenAndServeErr : Option String
  deriving DecidableEq, Repr

/-- Observable fate of the process after main runs its startup sequence:
log.Fatalf terminates it with a diagnostic, otherwise it is serving; a
serving process carries whether the client-CA pool placed into the TLS
config actually holds a certificate. -/
inductive ProcessOutcome where
  | fatal (msg : String) : ProcessOutcome
  | serving (clientCAPoolNonempty : Bool) : ProcessOutcome
  deriving DecidableEq, Repr

/-- The startup sequence of the mTLS variant of main, in source order:
tls.LoadX509KeyPair, os.ReadFile of the CA certificate,
caCertPool.AppendCertsFromPEM - whose boolean result the source discards,
so a CA file that reads but holds no parseable certificate does not stop
startup and merely leaves the pool empty - then net.Listen on the gRPC
port and http.ListenAndServe on the toggle port; each checked failure
hits a log.Fatalf with the diagnostic format string from the source. -/
def runMainStartup (env : StartupEnv) : ProcessOutcome :=
  match env.loadX509KeyPairErr with
  | some e => .fatal ("failed to load server cert: " ++ e)
  | none =>
    match env.readFileCACertErr with
    | some e => .fatal ("failed to read ca cert: " ++ e)
    | none =>
      match env.netListenErr with
      | some e => .fatal ("failed to listen: " ++ e)
      | none =>
        match env.listenAndServeErr with
        | some e => .fatal ("failed to start HTTP server: " ++ e)
        | none => .serving env.appendCertsFromPEMOk

/-- An event of the whole process while one mTLS StreamTime session is
active: either a select outcome delivered to the session, or a
/toggle-health request handled by the HTTP server. -/
inductive SysEvent where
  | sessEvent (e : StreamEvent) : SysEvent
  | toggleEvent : SysEvent
  deriving DecidableEq, Repr

/-- Joint state of the process: the shared server state and the state of
the one active streaming session. The session code never reads the server
state and the handler never touches the session. -/
structure Combined where
  server : ServerState
  session : SessionState
  deriving DecidableEq, Repr

/-- Interleaved execution of the toggle handler and the mTLS StreamTime
session: each event goes to its own component, which is exactly how the
source composes them (no shared variables between the two). -/
def combinedStep (c : Combined) : SysEvent → Combined
  | .sessEvent e => { c with session := MTLS.sessionStep c.session e }
  | .toggleEvent => { c with server := (handleToggle c.server).1 }

/-- Run of the whole process over an interleaved event trace. -/
def combinedRun (c : Combined) (evs : List SysEvent) : Combined :=
  evs.foldl combinedStep c

/-- The subtrace of select outcomes delivered to the session. -/
def sessionEvents (evs : List SysEvent) : List StreamEvent :=
  evs.filterMap fun e =>
    match e with
    | .sessEvent se => some se
    | .toggleEvent => none

/-- Operations concurrent requests perform on the Health Register: the
toggle handler writes it; a health query reads it.
The write is the /toggle-health handler body from the source. The read is
Modelled from the spec: the health-query surface is the standard gRPC
health service from the library, not part of this repository, and the
spec defines it as a Get() on the Health Register under the same single
lock. -/
inductive RegOp where
  | toggle : RegOp
  | get : RegOp
  deriving DecidableEq, Repr

/-- Program counter of one request thread: before mu.Lock(), holding the
lock before its body, holding the lock after its body, or returned. -/
inductive RegPC where
  | idle : RegPC
  | locked : RegPC
  | executed : RegPC
  | finished : RegPC
  deriving DecidableEq, Repr

/-- One concurrent request touching the Health Register. -/
structure RegThread where
  op : RegOp
  pc : RegPC
  observed : Option Bool
  deriving DecidableEq, Repr

/-- State of the concurrent system around the Health Register: who holds
mu, the isHealthy flag, a ghost count of completed toggle bodies, and the
request threads. -/
structure RegSys where
  lockHeld : Option Nat
  isHealthy : Bool
  togglesDone : Nat
  threads : List RegThread
  deriving DecidableEq, Repr

/-- Effect of one request body on the register while the lock is held:
toggle flips isHealthy (and bumps the ghost counter), get records the
value it read. -/
def runBody (s : RegSys) (th : RegThread) : RegSys × RegThread :=
  match th.op with
  | .toggle =>
      ({ s with isHealthy := !s.isHealthy, togglesDone := s.togglesDone + 1 },
       { th with pc := .executed })
  | .get =>
      (s, { th with pc := .executed, observed := some s.isHealthy })

/-- Small-step interleaving semantics of the concurrent requests. A thread
may acquire mu only when no thread holds it; it runs its body only while
it holds mu; releasing mu frees it for others. -/
inductive RegStep : RegSys → RegSys → Prop
  | acquire (s : RegSys) (i : Nat) (th : RegThread) :
      s.lockHeld = none →
      s.threads[i]? = some th →
      th.pc = .idle →
      RegStep s { s with lockHeld := some i,
                         threads := s.threads.set i { th with pc := .locked } }
  | execute (s : RegSys) (i : Nat) (th : RegThread) :
      s.lockHeld = some i →
      s.threads[i]? = some th →
      th.pc = .locked →
      RegStep s { (runBody s th).1 with
                    lockHeld := s.lockHeld,
                    threads := s.threads.set i (runBody s th).2 }
  | release (s : RegSys) (i : Nat) (th : RegThread) :
      s.lockHeld = some i →
      s.threads[i]? = some th →
      th.pc = .executed →
      RegStep s { s with lockHeld := none,
                         threads := s.threads.set i { th with pc := .finished } }

/-- Reflexive-transitive closure of the interleaving semantics. -/
inductive RegReach : RegSys → RegSys → Prop
  | refl (s : RegSys) : RegReach s s
  | tail {s t u : RegSys} : RegReach s t → RegStep t u → RegReach s u

/-- System at process start: mu free, isHealthy true, the given pending
requests none of which has run yet. -/
def initRegSys (ops : List RegOp) : RegSys :=
  { lockHeld := none, isHealthy := true, togglesDone := 0,
    threads := ops.map fun o => { op := o, pc := .idle, observed := none } }

/-- Thread i is inside the mu-protected critical section. -/
def inCS (s : RegSys) (i : Nat) : Prop :=
  ∃ th, s.threads[i]? = some th ∧ (th.pc = .locked ∨ th.pc = .executed)

lemma MTLS.sessionStep_terminated {s : SessionState} {r : StreamResult}
    (h : s.phase = .terminated r) (e : StreamEvent) : MTLS.sessionStep s e = s := by
  unfold MTLS.sessionStep
  rw [h]

lemma MTLS.foldl_sessionStep_terminated {s : SessionState} {r : StreamResult}
    (h : s.phase = .terminated r) (evs : List StreamEvent) :
    evs.foldl MTLS.sessionStep s = s := by
  induction evs with
  | nil => rfl
  | cons e rest ih => rw [List.foldl_cons, MTLS.sessionStep_terminated h e, ih]

lemma MTLS.foldl_sessionStep_okTicks {pre : List StreamEvent} (hok : okTicks pre = true)
    {s : SessionState} (hs : s.phase = .running) :
    pre.foldl MTLS.sessionStep s =
      { s with writes := s.writes ++
          (eventTicks pre).map fun t => { currentTime := formatRFC3339 t } } := by
  induction pre generalizing s with
  | nil => simp [eventTicks]
  | cons e rest ih =>
    match e with
    | .ctxDone => simp [okTicks] at hok
    | .tick t (some msg) => simp [okTicks] at hok
    | .tick t none =>
      rw [List.foldl_cons]
      have hstep : MTLS.sessionStep s (.tick t none) =
          { s with writes := s.writes ++ [{ currentTime := formatRFC3339 t }] } := by
        unfold MTLS.sessionStep
        rw [hs]
      rw [hstep, ih (by simpa [okTicks] using hok) (by simp [hs])]
      simp [eventTicks]

lemma MTLS.sessionStep_ctxDone {s : SessionState} (hs : s.phase = .running) :
    MTLS.sessionStep s .ctxDone =
      { s with phase := .terminated .clientDisconnected,
               tickersStopped := s.tickersStopped + 1 } := by
  unfold MTLS.sessionStep
  rw [hs]

lemma MTLS.sessionStep_sendFail {s : SessionState} (hs : s.phase = .running)
    (t : Nat) (msg : String) :
    MTLS.sessionStep s (.tick t (some msg)) =
      { s with phase := .terminated (.internalError ("failed to send time: " ++ msg)),
               writes := s.writes ++ [{ currentTime := formatRFC3339 t }],
               tickersStopped := s.tickersStopped + 1 } := by
  unfold MTLS.sessionStep
  rw [hs]

lemma MTLS.run_writes (evs : List StreamEvent) {s : SessionState}
    (hs : s.phase = .running) :
    (evs.foldl MTLS.sessionStep s).writes =
      s.writes ++ (processedTicks evs).map fun t => { currentTime := formatRFC3339 t } := by
  induction evs generalizing s with
  | nil => simp [processedTicks]
  | cons e rest ih =>
    match e with
    | .ctxDone =>
      rw [List.foldl_cons, MTLS.sessionStep_ctxDone hs,
        MTLS.foldl_sessionStep_terminated rfl rest]
      simp [processedTicks]
    | .tick t none =>
      have hstep : MTLS.sessionStep s (.tick t none) =
          { s with writes := s.writes ++ [{ currentTime := formatRFC3339 t }] } := by
        unfold MTLS.sessionStep
        rw [hs]
      rw [List.foldl_cons, hstep, ih (by simp [hs])]
      simp [processedTicks]
    | .tick t (some msg) =>
      rw [List.foldl_cons, MTLS.sessionStep_sendFail hs t msg,
        MTLS.foldl_sessionStep_terminated rfl rest]
      simp [processedTicks]

lemma processedTicks_append_eventTicks (evs : List StreamEvent) :
    ∃ rest, eventTicks evs = processedTicks evs ++ rest := by
  induction evs with
  | nil => exact ⟨[], rfl⟩
  | cons e tail ih =>
    match e with
    | .ctxDone => exact ⟨eventTicks tail, by simp [eventTicks, processedTicks]⟩
    | .tick t none =>
      obtain ⟨rest, hrest⟩ := ih
      exact ⟨rest, by simp [eventTicks, processedTicks, hrest]⟩
    | .tick t (some msg) =>
      exact ⟨eventTicks tail, by simp [eventTicks, processedTicks]⟩

/-- Resource invariant carried along a session run: exactly one ticker was
started, it is still live while the loop runs, and it has been stopped
once the handler returned. -/
def TickerInv (s : SessionState) : Prop :=
  s.tickersStarted = 1 ∧
  (s.phase = .running → s.tickersStopped = 0) ∧
  (∀ r, s.phase = .terminated r → s.tickersStopped = 1)

lemma MTLS.sessionStep_tickerInv {s : SessionState} (h : TickerInv s)
    (e : StreamEvent) : TickerInv (MTLS.sessionStep s e) := by
  obtain ⟨h1, h2, h3⟩ := h
  unfold MTLS.sessionStep
  match hphase : s.phase with
  | .terminated r => exact ⟨h1, h2 ∘ (hphase ▸ ·), fun r hr => h3 r (hphase ▸ hr)⟩
  | .running =>
    match e with
    | .ctxDone =>
      refine ⟨h1, fun hc => by simp at hc, fun r hr => ?_⟩
      simp [h2 hphase]
    | .tick t none => exact ⟨h1, fun _ => h2 hphase, fun r hr => by simp at hr⟩
    | .tick t (some msg) =>
      refine ⟨h1, fun hc => by simp at hc, fun r hr => ?_⟩
      simp [h2 hphase]

lemma MTLS.foldl_tickerInv (evs : List StreamEvent) {s : SessionState}
    (hs : TickerInv s) : TickerInv (evs.foldl MTLS.sessionStep s) := by
  induction evs generalizing s with
  | nil => exact hs
  | cons e rest ih => exact ih (MTLS.sessionStep_tickerInv hs e)

lemma MTLS.run_tickerInv (evs : List StreamEvent) :
    TickerInv (MTLS.StreamTime evs) := by
  have hinit : TickerInv MTLS.initialSession := by
    refine ⟨rfl, fun _ => rfl, fun r hr => ?_⟩
    simp [MTLS.initialSession] at hr
  exact MTLS.foldl_tickerInv evs hinit

/-- C1: the mTLS StreamTime handler terminates in exactly one of two ways.
If the context-done signal is the first terminating event, it returns nil
(clientDisconnected); if a failing send is the first terminating event,
it returns the codes.Internal status built from the send error; a trace
of successful ticks leaves it running, and a terminated run carries no
result other than those two. -/
theorem streamTime_exit_paths :
    (∀ pre rest, okTicks pre = true →
      (MTLS.StreamTime (pre ++ StreamEvent.ctxDone :: rest)).phase =
        SessionPhase.terminated StreamResult.clientDisconnected) ∧
    (∀ pre t msg rest, okTicks pre = true →
      (MTLS.StreamTime (pre ++ StreamEvent.tick t (some msg) :: rest)).phase =
        SessionPhase.terminated
          (StreamResult.internalError ("failed to send time: " ++ msg))) ∧
    (∀ evs, okTicks evs = true →
      (MTLS.StreamTime evs).phase = SessionPhase.running) ∧
    (∀ evs r, (MTLS.StreamTime evs).phase = SessionPhase.terminated r →
      r = StreamResult.clientDisconnected ∨
        ∃ msg, r = StreamResult.internalError msg) := by
  refine ⟨?_, ?_, ?_, ?_⟩
  · intro pre rest hok
    unfold MTLS.StreamTime
    rw [List.foldl_append, MTLS.foldl_sessionStep_okTicks hok rfl, List.foldl_cons,
      MTLS.sessionStep_ctxDone rfl, MTLS.foldl_sessionStep_terminated rfl rest]
  · intro pre t msg rest hok
    unfold MTLS.StreamTime
    rw [List.foldl_append, MTLS.foldl_sessionStep_okTicks hok rfl, List.foldl_cons,
      MTLS.sessionStep_sendFail rfl t msg, MTLS.foldl_sessionStep_terminated rfl rest]
  · intro evs hok
    unfold MTLS.StreamTime
    rw [MTLS.foldl_sessionStep_okTicks hok rfl]
    rfl
  · intro evs r _
    cases r with
    | clientDisconnected => exact Or.inl rfl
    | internalError msg => exact Or.inr ⟨msg, rfl⟩

/-- Witness for C1: on a trace of one successful tick followed by the
cancellation signal, the handler returns nil. -/
theorem streamTime_exit_paths_witness :
    (MTLS.StreamTime ([StreamEvent.tick 0 none] ++ StreamEvent.ctxDone :: [])).phase =
      SessionPhase.terminated StreamResult.clientDisconnected :=
  streamTime_exit_paths.1 [StreamEvent.tick 0 none] [] (by decide)

/-- C3: every run of the mTLS StreamTime handler starts exactly one
ticker, never has more than one outstanding, and has stopped it whenever
the handler has returned, on both exit paths. -/
theorem streamTime_ticker_lifecycle :
    (∀ evs, (MTLS.StreamTime evs).tickersStarted = 1) ∧
    (∀ evs, (MTLS.StreamTime evs).tickersStarted -
        (MTLS.StreamTime evs).tickersStopped ≤ 1) ∧
    (∀ evs r, (MTLS.StreamTime evs).phase = SessionPhase.terminated r →
      (MTLS.StreamTime evs).tickersStopped = (MTLS.StreamTime evs).tickersStarted) := by
  refine ⟨fun evs => (MTLS.run_tickerInv evs).1, fun evs => ?_, fun evs r hr => ?_⟩
  · obtain ⟨h1, -, -⟩ := MTLS.run_tickerInv evs
    omega
  · obtain ⟨h1, -, h3⟩ := MTLS.run_tickerInv evs
    rw [h1, h3 r hr]

/-- Witness for C3: after the cancellation exit on a concrete trace, the
one ticker that was started has been stopped. -/
theorem streamTime_ticker_lifecycle_witness :
    (MTLS.StreamTime [StreamEvent.ctxDone]).tickersStopped =
      (MTLS.StreamTime [StreamEvent.ctxDone]).tickersStarted :=
  streamTime_ticker_lifecycle.2.2 [StreamEvent.ctxDone]
    StreamResult.clientDisconnected (by decide)

/-- C4: the TimeResponses passed to stream.Send are exactly one per
processed tick, in trace order; the processed ticks are an initial segment of the
ticks the clock delivered, so strictly increasing clock ticks yield
strictly increasing emitted ticks; and a terminated session ignores every
further event, so nothing is written after termination. -/
theorem streamTime_writes_per_tick :
    (∀ evs, (MTLS.StreamTime evs).writes =
      (processedTicks evs).map fun t => { currentTime := formatRFC3339 t }) ∧
    (∀ evs, ∃ rest, eventTicks evs = processedTicks evs ++ rest) ∧
    (∀ evs, List.Chain' (fun a b => a < b) (eventTicks evs) →
      List.Chain' (fun a b => a < b) (processedTicks evs)) ∧
    (∀ s e r, s.phase = SessionPhase.terminated r → MTLS.sessionStep s e = s) := by
  refine ⟨fun evs => ?_, processedTicks_append_eventTicks, fun evs h => ?_, ?_⟩
  · have := MTLS.run_writes evs (s := MTLS.initialSession) rfl
    simpa [MTLS.initialSession] using this
  · obtain ⟨rest, hrest⟩ := processedTicks_append_eventTicks evs
    rw [hrest] at h
    exact (List.chain'_append.1 h).1
  · intro s e r hr
    exact MTLS.sessionStep_terminated hr e

/-- Witness for C4: on a concrete strictly increasing trace, the
processed ticks are strictly increasing. -/
theorem streamTime_writes_per_tick_witness :
    List.Chain' (fun a b => a < b)
      (processedTicks [StreamEvent.tick 0 none, StreamEvent.tick 1 none]) :=
  streamTime_writes_per_tick.2.2.1
    [StreamEvent.tick 0 none, StreamEvent.tick 1 none]
    (by simp [eventTicks, List.chain'_cons])

/-- C10: the StreamTime handlers of the two variants are the same function
of the select-outcome trace, and they differ only in the tick period
passed to time.NewTicker: 2 seconds in the mTLS variant, 1 second in the
standalone variant. In particular they format the same instants and
return the same results on the same inputs. -/
theorem streamTime_variants_equivalent :
    (∀ evs, Standalone.StreamTime evs = MTLS.StreamTime evs) ∧
    MTLS.tickPeriodSeconds = 2 ∧ Standalone.tickPeriodSeconds = 1 := by
  refine ⟨fun evs => ?_, rfl, rfl⟩
  have hstep : Standalone.sessionStep = MTLS.sessionStep := rfl
  have hinit : Standalone.initialSession = MTLS.initialSession := rfl
  unfold Standalone.StreamTime MTLS.StreamTime
  rw [hstep, hinit]

lemma combinedRun_session (evs : List SysEvent) :
    ∀ st ss, (combinedRun { server := st, session := ss } evs).session =
      (sessionEvents evs).foldl MTLS.sessionStep ss := by
  induction evs with
  | nil => intro st ss; rfl
  | cons e rest ih =>
    intro st ss
    cases e with
    | sessEvent se =>
      simpa [combinedRun, combinedStep, sessionEvents] using
        ih st (MTLS.sessionStep ss se)
    | toggleEvent =>
      simpa [combinedRun, combinedStep, sessionEvents] using
        ih (handleToggle st).1 ss

/-- C6: the session state of an active mTLS StreamTime session after any
interleaving of select outcomes and /toggle-health requests is exactly
the session run on the select outcomes alone, whatever the server health
state: toggles neither terminate the session nor change what it sends. -/
theorem streamTime_health_independent :
    ∀ st evs, (combinedRun { server := st, session := MTLS.initialSession } evs).session =
      MTLS.StreamTime (sessionEvents evs) := by
  intro st evs
  exact combinedRun_session evs st MTLS.initialSession

lemma iterateToggle_isHealthy (n : Nat) :
    (iterateToggle n).isHealthy = decide (n % 2 = 0) := by
  induction n with
  | zero => rfl
  | succ n ih =>
    have hstep : (iterateToggle (n + 1)).isHealthy = !(iterateToggle n).isHealthy := rfl
    rcases Nat.mod_two_eq_zero_or_one n with h | h
    · have h1 : (n + 1) % 2 = 1 := by omega
      rw [hstep, ih, h, h1]
      simp
    · have h1 : (n + 1) % 2 = 0 := by omega
      rw [hstep, ih, h, h1]
      simp

lemma getServingStatus_iterateToggle (n : Nat) :
    getServingStatus (iterateToggle n) "" =
      some (if (iterateToggle n).isHealthy then ServingStatus.SERVING
            else ServingStatus.NOT_SERVING) := by
  cases n with
  | zero => rfl
  | succ n =>
    show getServingStatus (handleToggle (iterateToggle n)).1 "" = _
    have hstep : (iterateToggle (n + 1)).isHealthy = !(iterateToggle n).isHealthy := rfl
    cases hh : (iterateToggle n).isHealthy <;>
      simp [handleToggle, getServingStatus, setServingStatus, List.lookup, hh,
        hstep]

/-- C2: after N requests to the toggle handler starting from the initial
SERVING state, the Health Register reads SERVING when N is even and
NOT_SERVING when N is odd, and the health server whole-service entry
agrees. -/
theorem healthRegister_toggle_parity :
    ∀ n : Nat,
      (if (iterateToggle n).isHealthy then ServingStatus.SERVING
       else ServingStatus.NOT_SERVING) =
        (if n % 2 = 0 then ServingStatus.SERVING else ServingStatus.NOT_SERVING) ∧
      getServingStatus (iterateToggle n) "" =
        some (if n % 2 = 0 then ServingStatus.SERVING else ServingStatus.NOT_SERVING) := by
  intro n
  have h := iterateToggle_isHealthy n
  constructor
  · rw [h]
    rcases Nat.mod_two_eq_zero_or_one n with h2 | h2 <;> simp [h2]
  · rw [getServingStatus_iterateToggle n, h]
    rcases Nat.mod_two_eq_zero_or_one n with h2 | h2 <;> simp [h2]

/-- C8: the state main establishes before serving any request has the
whole-service health entry set to SERVING and the register healthy, and
it is exactly the zero-toggle state. -/
theorem initial_health_serving :
    getServingStatus initialServerState "" = some ServingStatus.SERVING ∧
    initialServerState.isHealthy = true ∧
    iterateToggle 0 = initialServerState := by
  refine ⟨?_, rfl, rfl⟩
  rfl

/-- C5 fails as stated: after the first toggle from the initial state the
resulting status is NOT_SERVING, yet the confirmation body
"Health status is now UNHEALTHY\n" does contain the substring "HEALTHY"
(it is a substring of "UNHEALTHY"), so "the body contains HEALTHY exactly
when the resulting status is SERVING" is false at this input. -/
theorem toggle_body_claim_counterexample :
    strContains (handleToggle initialServerState).2 "HEALTHY" = true ∧
    getServingStatus (handleToggle initialServerState).1 "" =
      some ServingStatus.NOT_SERVING ∧
    ¬ (strContains (handleToggle initialServerState).2 "HEALTHY" = true ↔
        getServingStatus (handleToggle initialServerState).1 "" =
          some ServingStatus.SERVING) := by
  decide

/-- C5 as amended: each request synchronously flips the register and the
published status; the body contains "UNHEALTHY" exactly when the
resulting status is NOT_SERVING; the body always contains "HEALTHY" as a
substring (it occurs inside "UNHEALTHY" too), and the body is the
HEALTHY confirmation exactly when the resulting status is SERVING; the
two-call scenario from the initial SERVING state behaves as described. -/
theorem handleToggle_body_spec :
    (∀ st, (handleToggle st).1.isHealthy = !st.isHealthy) ∧
    (∀ st, getServingStatus (handleToggle st).1 "" =
      some (if st.isHealthy then ServingStatus.NOT_SERVING else ServingStatus.SERVING)) ∧
    (∀ st, strContains (handleToggle st).2 "UNHEALTHY" = true ↔
      getServingStatus (handleToggle st).1 "" = some ServingStatus.NOT_SERVING) ∧
    (∀ st, strContains (handleToggle st).2 "HEALTHY" = true) ∧
    (∀ st, (handleToggle st).2 = "Health status is now HEALTHY\n" ↔
      getServingStatus (handleToggle st).1 "" = some ServingStatus.SERVING) ∧
    (getServingStatus (iterateToggle 1) "" = some ServingStatus.NOT_SERVING ∧
      strContains (handleToggle (iterateToggle 0)).2 "UNHEALTHY" = true) ∧
    (getServingStatus (iterateToggle 2) "" = some ServingStatus.SERVING ∧
      strContains (handleToggle (iterateToggle 1)).2 "HEALTHY" = true ∧
      strContains (handleToggle (iterateToggle 1)).2 "UNHEALTHY" = false) := by
  refine ⟨?_, ?_, ?_, ?_, ?_, by decide, by decide⟩
  · intro st
    cases h : st.isHealthy <;> simp [handleToggle, h]
  · intro st
    cases h : st.isHealthy <;>
      simp [handleToggle, getServingStatus, setServingStatus, List.lookup, h]
  · intro st
    cases h : st.isHealthy <;>
      simp [handleToggle, getServingStatus, setServingStatus, List.lookup, h] <;>
      decide
  · intro st
    cases h : st.isHealthy <;> simp [handleToggle, h] <;> decide
  · intro st
    cases h : st.isHealthy <;>
      simp [handleToggle, getServingStatus, setServingStatus, List.lookup, h]

/-- C7 fails on the code: when the server key pair loads, the CA file
reads and both listeners come up, but the CA file holds no parseable
certificate, caCertPool.AppendCertsFromPEM returns false and the source
discards that result, so the process keeps serving with an empty
client-CA pool instead of terminating. The second conjunct shows the
parse outcome never influences control flow: the four checked steps
alone decide whether the process serves, whatever the pool ends up
containing. -/
theorem startup_ignores_ca_parse_failure :
    runMainStartup
        { loadX509KeyPairErr := none, readFileCACertErr := none,
          appendCertsFromPEMOk := false, netListenErr := none,
          listenAndServeErr := none } = ProcessOutcome.serving false ∧
    (∀ env : StartupEnv,
      runMainStartup env = ProcessOutcome.serving env.appendCertsFromPEMOk ↔
        (env.loadX509KeyPairErr = none ∧ env.readFileCACertErr = none ∧
         env.netListenErr = none ∧ env.listenAndServeErr = none)) := by
  refine ⟨rfl, fun env => ?_⟩
  obtain ⟨a, b, ok, c, d⟩ := env
  cases a <;> cases b <;> cases c <;> cases d <;> simp [runMainStartup]

/-- Lock invariant of the concurrent register system: only the thread
recorded as holding mu can be inside the critical section, and the
register always holds the parity of the completed toggle bodies, never an
intermediate value. -/
def RegInv (s : RegSys) : Prop :=
  (∀ i, inCS s i → s.lockHeld = some i) ∧
  s.isHealthy = decide (s.togglesDone % 2 = 0)

lemma regInv_init (ops : List RegOp) : RegInv (initRegSys ops) := by
  constructor
  · rintro i ⟨th, hth, hpc⟩
    rw [initRegSys] at hth
    simp only [List.getElem?_map, Option.map_eq_some'] at hth
    obtain ⟨o, -, rfl⟩ := hth
    rcases hpc with h | h <;> simp at h
  · rfl

lemma regStep_inv {s t : RegSys} (h : RegInv s) (hst : RegStep s t) : RegInv t := by
  obtain ⟨hcs, hreg⟩ := h
  cases hst with
  | acquire i th hlock hth hpc =>
    refine ⟨?_, hreg⟩
    rintro j ⟨th2, hth2, hpc2⟩
    by_cases hij : j = i
    · simp [hij]
    · simp only [List.getElem?_set_ne (fun he => hij he.symm)] at hth2
      exact absurd (hcs j ⟨th2, hth2, hpc2⟩) (by simp [hlock])
  | execute i th hlock hth hpc =>
    constructor
    · rintro j ⟨th2, hth2, hpc2⟩
      by_cases hij : j = i
      · simp [hij, hlock]
      · simp only [List.getElem?_set_ne (fun he => hij he.symm)] at hth2
        cases hop : th.op <;> simp only [runBody, hop] <;>
          simpa [hlock] using (hcs j ⟨th2, by simpa [runBody, hop] using hth2, hpc2⟩)
    · cases hop : th.op with
      | toggle =>
        simp only [runBody, hop]
        rw [hreg]
        rcases Nat.mod_two_eq_zero_or_one s.togglesDone with h2 | h2 <;>
          · have h3 : (s.togglesDone + 1) % 2 = 1 - s.togglesDone % 2 := by omega
            simp [h2] at h3 ⊢
            omega
      | get => simpa [runBody, hop] using hreg
  | release i th hlock hth hpc =>
    refine ⟨?_, hreg⟩
    rintro j ⟨th2, hth2, hpc2⟩
    by_cases hij : j = i
    · subst hij
      have hlen : j < s.threads.length := by
        cases hh : s.threads[j]? with
        | none => rw [hh] at hth; cases hth
        | some x => exact (List.getElem?_eq_some.mp hh).1
      rw [List.getElem?_set_eq_of_lt _ hlen] at hth2
      cases hth2
      rcases hpc2 with h | h <;> cases h
    · simp only [List.getElem?_set_ne (fun he => hij he.symm)] at hth2
      have := hcs j ⟨th2, hth2, hpc2⟩
      rw [hlock] at this
      cases this
      exact absurd rfl hij

lemma regReach_inv {s t : RegSys} (h : RegInv s) (hr : RegReach s t) : RegInv t := by
  induction hr with
  | refl => exact h
  | tail hreach hstep ih => exact regStep_inv ih hstep

/-- C9: in every state reachable by interleaving concurrent toggle and
query requests from process start, at most one request is inside the
mu-protected critical section (register operations never overlap), and
the register always reads as the parity of the completed toggles, so no
reader ever observes a torn or half-done toggle. -/
theorem healthRegister_serialized :
    ∀ ops s, RegReach (initRegSys ops) s →
      (∀ i j, inCS s i → inCS s j → i = j) ∧
      s.isHealthy = decide (s.togglesDone % 2 = 0) := by
  intro ops s hr
  obtain ⟨hcs, hreg⟩ := regReach_inv (regInv_init ops) hr
  refine ⟨fun i j hi hj => ?_, hreg⟩
  have h1 := hcs i hi
  have h2 := hcs j hj
  exact Option.some.inj (h1.symm.trans h2)

/-- Witness for C9: the serialization property at the initial state of a
system with one toggle request and one query request. -/
theorem healthRegister_serialized_witness :
    (∀ i j, inCS (initRegSys [RegOp.toggle, RegOp.get]) i →
      inCS (initRegSys [RegOp.toggle, RegOp.get]) j → i = j) ∧
    (initRegSys [RegOp.toggle, RegOp.get]).isHealthy =
      decide ((initRegSys [RegOp.toggle, RegOp.get]).togglesDone % 2 = 0) :=
  healthRegister_serialized [RegOp.toggle, RegOp.get] _ (RegReach.refl _)
